import Mathlib

/-!
Shallow embedding of the IOT_Health_Dashboard sleep pipeline (src/sleep.py).

Modelling conventions:
* Calendar dates `YYYY-MM-DD` are modelled as day numbers (`Nat`, days since
  1970-01-01).  The source compares dates as zero-padded strings, whose
  lexicographic order and equality agree with calendar order, and advances a
  date with `timedelta(days=1)`, which is `+ 1` on day numbers.
* Python exceptions are modelled by `Except PyError`.
* Python `round(x, n)` and `numpy.around(x, n)` on real values are modelled
  on `ℚ` by round-half-to-even at `n` decimal digits (`pyround`).
* The Fitbit client (`fitbit.sleeplogs_range`) is an external collaborator;
  it is modelled as an arbitrary function from an inclusive day range to the
  list of raw records of its response (`raw_logs["sleep"]`), in the order the
  provider sends them.
* The persisted file `sleep.csv` is modelled as `Option (List SleepLog)`
  (`none` = file absent); each run returns the resulting in-memory table, the
  file contents after the run, the requested range (if any), and whether
  `to_csv` was called.
-/

/-- Python exceptions raised by the code paths modelled here. -/
inductive PyError where
  /-- `ZeroDivisionError` from `duration_sleep / duration_total`. -/
  | zeroDivisionError : PyError
  /-- `ValueError` from `pd.concat` on an empty list of frames. -/
  | valueError : PyError
  /-- `IndexError` from `tolist()[0]` on an empty index. -/
  | indexError : PyError
deriving DecidableEq, Repr

/-- A raw provider record: the fields of one entry of `raw_logs["sleep"]`
read by `capture_explicit_data` (stage minutes live at
`levels.summary.<stage>.minutes`). -/
structure RawLog where
  dateOfSleep : Nat
  minutesAfterWakeup : Nat
  minutesToFallAsleep : Nat
  startTime : Nat
  deep : Nat
  light : Nat
  rem : Nat
  wake : Nat
deriving DecidableEq, Repr

/-- One row of the decoded sleep table (one row of the DataFrame built by
`capture_explicit_data`, indexed by `dateOfSleep`). -/
structure SleepLog where
  dateOfSleep : Nat
  minutesAfterWakeup : Nat
  minutesToFallAsleep : Nat
  startTime : Nat
  deep : Nat
  light : Nat
  rem : Nat
  wake : Nat
  efficiency : ℚ
  duration : Nat
deriving DecidableEq, Repr

/-- Round-half-to-even of a rational to an integer, the rounding used by
Python `round` and `numpy.around`. -/
def rhe (q : ℚ) : ℤ :=
  let f := ⌊q⌋
  if q - f < 1/2 then f
  else if q - f > 1/2 then f + 1
  else if f % 2 = 0 then f else f + 1

/-- `round(q, n)` / `np.around(q, n)`: round-half-to-even at `n` decimal
digits. -/
def pyround (q : ℚ) (n : Nat) : ℚ := (rhe (q * 10 ^ n) : ℚ) / 10 ^ n

/-- Total minutes of the four stages of a raw record (`duration_total` in
`capture_explicit_data`). -/
def totalMinutes (r : RawLog) : Nat := r.deep + r.light + r.rem + r.wake

/-- Minutes asleep of a raw record (`duration_sleep`: deep+light+rem). -/
def sleepMinutes (r : RawLog) : Nat := r.deep + r.light + r.rem

/-- The row built from one raw record when no exception is raised:
`efficiency = round(duration_sleep / duration_total, 2)`,
`duration = duration_total`. -/
def decodeLog (r : RawLog) : SleepLog :=
  { dateOfSleep := r.dateOfSleep
    minutesAfterWakeup := r.minutesAfterWakeup
    minutesToFallAsleep := r.minutesToFallAsleep
    startTime := r.startTime
    deep := r.deep
    light := r.light
    rem := r.rem
    wake := r.wake
    efficiency := pyround ((sleepMinutes r : ℚ) / (totalMinutes r : ℚ)) 2
    duration := totalMinutes r }

/-- Decode one raw record: the body of the `for log_raw in
sleep_logs_raw["sleep"]` loop of `capture_explicit_data`.  When all four
stage minutes are zero, `duration_sleep / duration_total` raises
`ZeroDivisionError`. -/
def captureLog (r : RawLog) : Except PyError SleepLog :=
  if totalMinutes r = 0 then .error .zeroDivisionError
  else .ok (decodeLog r)

/-- Decode a list of raw records in order, stopping at the first exception
(the loop of `capture_explicit_data`). -/
def captureAll : List RawLog → Except PyError (List SleepLog)
  | [] => .ok []
  | r :: rs =>
    match captureLog r with
    | .error e => .error e
    | .ok l =>
      match captureAll rs with
      | .error e => .error e
      | .ok ls => .ok (l :: ls)

/-- `Sleep.capture_explicit_data`: decode every raw record, then
`sleep_logs.reverse()`, then `pd.concat(frames)` — which raises `ValueError`
when the list of frames is empty. -/
def capture_explicit_data (raws : List RawLog) : Except PyError (List SleepLog) :=
  match captureAll raws with
  | .error e => .error e
  | .ok logs =>
    let rev := logs.reverse
    if rev.isEmpty then .error .valueError else .ok rev

/-- `local_logs.index.max()` on the date index (0 on an empty table; the
modelled runs always read a non-empty table). -/
def maxDate (t : List SleepLog) : Nat :=
  t.foldr (fun r m => max r.dateOfSleep m) 0

instance {ε α : Type} [DecidableEq ε] [DecidableEq α] : DecidableEq (Except ε α) :=
  fun a b =>
  match a, b with
  | .error e, .error f => decidable_of_iff (e = f) (by simp)
  | .ok x, .ok y => decidable_of_iff (x = y) (by simp)
  | .error _, .ok _ => isFalse (fun h => by cases h)
  | .ok _, .error _ => isFalse (fun h => by cases h)

/-- Outcome of one run of the sync engine. -/
structure RunOut where
  /-- the value of `self.sleep_logs` after the run, or the exception. -/
  result : Except PyError (List SleepLog)
  /-- contents of `sleep.csv` after the run (`none` = absent). -/
  file : Option (List SleepLog)
  /-- the inclusive `date_range` passed to `fitbit.sleeplogs_range`, when a
  request was made. -/
  request : Option (Nat × Nat)
  /-- whether `to_csv` was called. -/
  wrote : Bool
deriving DecidableEq, Repr

/-- `Sleep.update_local_logs`: the file exists and holds `file`;
`latest = index.max()`; if `latest == today` return the table unchanged
(no request); else request `(latest + 1, today)`; if the response is empty
return the table unchanged (no write); else decode, append to the local
table with `pd.concat`, and overwrite `sleep.csv`. -/
def update_local_logs (provider : Nat → Nat → List RawLog) (today : Nat)
    (file : List SleepLog) : RunOut :=
  let local_logs := file
  let latest := maxDate local_logs
  if latest = today then
    ⟨.ok local_logs, some file, none, false⟩
  else
    let raw := provider (latest + 1) today
    if raw = [] then
      ⟨.ok local_logs, some file, some (latest + 1, today), false⟩
    else
      match capture_explicit_data raw with
      | .error e => ⟨.error e, some file, some (latest + 1, today), false⟩
      | .ok api =>
        ⟨.ok (local_logs ++ api), some (local_logs ++ api),
          some (latest + 1, today), true⟩

/-- Day number (days since 1970-01-01) of `"2018-08-07"`, the fixed start of
the full-history request in `initialize_csv`. -/
def epochDate : Nat := 17750

/-- `Sleep.initialize_csv` (run when `sleep.csv` is absent): request the full
range `("2018-08-07", today)`, decode, and write `sleep.csv`.  When decoding
raises, no write happens and the file stays absent. -/
def init_csv (provider : Nat → Nat → List RawLog) (today : Nat) : RunOut :=
  match capture_explicit_data (provider epochDate today) with
  | .error e => ⟨.error e, none, some (epochDate, today), false⟩
  | .ok logs => ⟨.ok logs, some logs, some (epochDate, today), true⟩

/-- `Sleep.__init__`: update the table when `sleep.csv` exists, else
initialize it. -/
def sleep_run (provider : Nat → Nat → List RawLog) (today : Nat)
    (file : Option (List SleepLog)) : RunOut :=
  match file with
  | some t => update_local_logs provider today t
  | none => init_csv provider today

/-- Insert into a `≤`-sorted list of rationals, keeping it sorted. -/
def insSorted (x : ℚ) : List ℚ → List ℚ
  | [] => [x]
  | y :: ys => if x ≤ y then x :: y :: ys else y :: insSorted x ys

/-- Insertion sort on rationals (the sort inside `np.median`). -/
def sortQ (xs : List ℚ) : List ℚ := xs.foldr insSorted []

/-- `np.median` on a non-empty array: middle element of the sorted array for
odd length, mean of the two middle elements for even length.  (On an empty
array `np.median` yields `nan`; the modelled caller fails before ever
reaching it on an empty table.) -/
def npMedian (xs : List ℚ) : ℚ :=
  let s := sortQ xs
  let n := s.length
  if n % 2 = 1 then s.getD (n / 2) 0
  else (s.getD (n / 2 - 1) 0 + s.getD (n / 2) 0) / 2

/-- `np.around(stage / durations, 3) * 100` for one stage column. -/
def stagePerc (stage : SleepLog → Nat) (t : List SleepLog) : List ℚ :=
  t.map (fun r => pyround ((stage r : ℚ) / (r.duration : ℚ)) 3 * 100)

/-- The per-stage data computed by `plot_stages_percent` before any drawing:
per-record percentages and their across-table medians. -/
structure StagesData where
  xmin : Nat
  xmax : Nat
  awake_perc : List ℚ
  rem_perc : List ℚ
  light_perc : List ℚ
  deep_perc : List ℚ
  awake_median : ℚ
  rem_median : ℚ
  light_median : ℚ
  deep_median : ℚ
deriving DecidableEq, Repr

/-- The data-computation slice of `Sleep.plot_stages_percent` (lines up to
the median arrays): on an empty table `index.tolist()[0]` raises
`IndexError` before any arithmetic; otherwise compute
`around(stage/durations, 3) * 100` per record and
`around(np.median(perc), 3)` per stage. -/
def plot_stages_percent_data (t : List SleepLog) :
    Except PyError StagesData :=
  match t with
  | [] => .error .indexError
  | first :: rest =>
    let xmin := first.dateOfSleep - 1
    let xmax := ((first :: rest).getLastD first).dateOfSleep + 1
    let awake_perc := stagePerc SleepLog.wake (first :: rest)
    let rem_perc := stagePerc SleepLog.rem (first :: rest)
    let light_perc := stagePerc SleepLog.light (first :: rest)
    let deep_perc := stagePerc SleepLog.deep (first :: rest)
    .ok
      { xmin := xmin
        xmax := xmax
        awake_perc := awake_perc
        rem_perc := rem_perc
        light_perc := light_perc
        deep_perc := deep_perc
        awake_median := pyround (npMedian awake_perc) 3
        rem_median := pyround (npMedian rem_perc) 3
        light_median := pyround (npMedian light_perc) 3
        deep_median := pyround (npMedian deep_perc) 3 }

/-- Merged/stored tables are ascending by date (strictly: one row per
date). -/
def sortedByDate (t : List SleepLog) : Prop :=
  List.Chain' (· < ·) (t.map (·.dateOfSleep))

instance (t : List SleepLog) : Decidable (sortedByDate t) :=
  inferInstanceAs (Decidable (List.Chain' _ _))

/-- Number of rows of a table carrying date `d`. -/
def dateCount (d : Nat) (t : List SleepLog) : Nat :=
  (t.map (·.dateOfSleep)).count d

/-- Number of raw records of a provider response carrying date `d`. -/
def rawDateCount (d : Nat) (rs : List RawLog) : Nat :=
  (rs.map (·.dateOfSleep)).count d

/-! ### Basic lemmas about the embedding -/

theorem rhe_intCast (z : ℤ) : rhe ((z : ℚ)) = z := by
  simp [rhe, Int.floor_intCast, sub_self]

/-- Re-rounding at 3 decimals a value that is an integer number of
thousandths times 100 changes nothing. -/
theorem pyround_idem100 (q : ℚ) :
    pyround (pyround q 3 * 100) 3 = pyround q 3 * 100 := by
  unfold pyround
  have h : (rhe (q * 10 ^ 3) : ℚ) / 10 ^ 3 * 100 * 10 ^ 3
      = ((rhe (q * 10 ^ 3) * 100 : ℤ) : ℚ) := by
    push_cast
    ring
  rw [h, rhe_intCast]
  push_cast
  ring

theorem npMedian_single (x : ℚ) : npMedian [x] = x := by
  simp [npMedian, sortQ, insSorted]

theorem decodeLog_date (r : RawLog) : (decodeLog r).dateOfSleep = r.dateOfSleep := rfl

theorem captureLog_ok {r : RawLog} (h : totalMinutes r ≠ 0) :
    captureLog r = .ok (decodeLog r) := by
  simp [captureLog, h]

theorem captureLog_ok_inv {r : RawLog} {l : SleepLog} (h : captureLog r = .ok l) :
    l = decodeLog r := by
  unfold captureLog at h
  split at h
  · cases h
  · cases h
    rfl

theorem captureAll_ok {raws : List RawLog} (h : ∀ r ∈ raws, totalMinutes r ≠ 0) :
    captureAll raws = .ok (raws.map decodeLog) := by
  induction raws with
  | nil => rfl
  | cons r rs ih =>
    simp [captureAll, captureLog_ok (h r (List.mem_cons_self r rs)),
      ih (fun x hx => h x (List.mem_cons_of_mem _ hx))]

theorem captureAll_dates :
    ∀ {raws : List RawLog} {logs : List SleepLog}, captureAll raws = .ok logs →
    logs.map (·.dateOfSleep) = raws.map (·.dateOfSleep) := by
  intro raws
  induction raws with
  | nil =>
    intro logs h
    simp [captureAll] at h
    simp [h]
  | cons r rs ih =>
    intro logs h
    cases hcl : captureLog r with
    | error e => simp [captureAll, hcl] at h
    | ok l =>
      cases hca : captureAll rs with
      | error e => simp [captureAll, hcl, hca] at h
      | ok ls =>
        simp [captureAll, hcl, hca] at h
        subst h
        simp [captureLog_ok_inv hcl, decodeLog_date, ih hca]

theorem capture_ok {raws : List RawLog} (hne : raws ≠ [])
    (h : ∀ r ∈ raws, totalMinutes r ≠ 0) :
    capture_explicit_data raws = .ok ((raws.map decodeLog).reverse) := by
  simp [capture_explicit_data, captureAll_ok h, List.isEmpty_iff,
    List.reverse_eq_nil_iff, List.map_eq_nil_iff, hne]

theorem capture_dates {raws : List RawLog} {api : List SleepLog}
    (h : capture_explicit_data raws = .ok api) :
    api.map (·.dateOfSleep) = (raws.map (·.dateOfSleep)).reverse := by
  unfold capture_explicit_data at h
  cases hca : captureAll raws with
  | error e => simp [hca] at h
  | ok logs =>
    rw [hca] at h
    by_cases hrev : logs.reverse.isEmpty
    · simp [hrev] at h
    · simp [hrev] at h
      rw [← h, List.map_reverse, captureAll_dates hca]

theorem maxDate_cons (r : SleepLog) (t : List SleepLog) :
    maxDate (r :: t) = max r.dateOfSleep (maxDate t) := rfl

theorem le_maxDate_of_mem {x : SleepLog} {t : List SleepLog} (h : x ∈ t) :
    x.dateOfSleep ≤ maxDate t := by
  induction t with
  | nil => cases h
  | cons y ys ih =>
    rcases List.mem_cons.mp h with h | h
    · subst h
      simp [maxDate_cons]
    · exact le_trans (ih h) (by simp [maxDate_cons])

theorem maxDate_append (s t : List SleepLog) :
    maxDate (s ++ t) = max (maxDate s) (maxDate t) := by
  induction s with
  | nil => simp [maxDate]
  | cons r rs ih => simp [maxDate_cons, ih, max_assoc]

theorem update_latest_eq {provider : Nat → Nat → List RawLog} {today : Nat}
    {file : List SleepLog} (h : maxDate file = today) :
    update_local_logs provider today file = ⟨.ok file, some file, none, false⟩ := by
  simp [update_local_logs, h]

theorem update_empty_eq {provider : Nat → Nat → List RawLog} {today : Nat}
    {file : List SleepLog} (h1 : maxDate file ≠ today)
    (h2 : provider (maxDate file + 1) today = []) :
    update_local_logs provider today file
      = ⟨.ok file, some file, some (maxDate file + 1, today), false⟩ := by
  simp [update_local_logs, h1, h2]

theorem update_merge_eq {provider : Nat → Nat → List RawLog} {today : Nat}
    {file : List SleepLog} {api : List SleepLog} (h1 : maxDate file ≠ today)
    (h2 : provider (maxDate file + 1) today ≠ [])
    (h3 : capture_explicit_data (provider (maxDate file + 1) today) = .ok api) :
    update_local_logs provider today file
      = ⟨.ok (file ++ api), some (file ++ api),
          some (maxDate file + 1, today), true⟩ := by
  simp [update_local_logs, h1, h2, h3]

theorem update_error_eq {provider : Nat → Nat → List RawLog} {today : Nat}
    {file : List SleepLog} {e : PyError} (h1 : maxDate file ≠ today)
    (h2 : provider (maxDate file + 1) today ≠ [])
    (h3 : capture_explicit_data (provider (maxDate file + 1) today) = .error e) :
    update_local_logs provider today file
      = ⟨.error e, some file, some (maxDate file + 1, today), false⟩ := by
  simp [update_local_logs, h1, h2, h3]

/-! ### Concrete inputs used by witnesses and counterexamples -/

/-- A provider whose response is always empty. -/
def provider0 : Nat → Nat → List RawLog := fun _ _ => []

/-- A raw record with all four stage minutes zero. -/
def rawZero : RawLog := ⟨100, 0, 0, 0, 0, 0, 0, 0⟩

/-- The raw record of the spec scenario: deep=60, light=120, rem=30,
wake=10. -/
def raw5 : RawLog := ⟨19723, 0, 0, 420, 60, 120, 30, 10⟩

/-- A decoded row dated day 3 with duration 4. -/
def log3 : SleepLog := ⟨3, 0, 0, 0, 1, 1, 1, 1, 3/4, 4⟩

/-- `true` on `ok`, `false` on `error`. -/
def exceptOk {ε α : Type} : Except ε α → Bool
  | .ok _ => true
  | .error _ => false

/-! ### C4 -/

/-- C4, as stated, is false: on a raw record whose four stage minutes are
all zero the decoder raises `ZeroDivisionError`; it does not return a
degenerate efficiency value. -/
theorem C4_counterexample :
    captureLog rawZero = .error .zeroDivisionError := rfl

/-- C4 (amended): for every raw record whose four stage-minute fields are
all zero, the record decoder raises `ZeroDivisionError` (it does not return
a degenerate efficiency value). -/
theorem C4_zero_duration_raises (r : RawLog) (h : totalMinutes r = 0) :
    captureLog r = .error .zeroDivisionError := by
  simp [captureLog, h]

theorem C4_witness :
    totalMinutes rawZero = 0 ∧ captureLog rawZero = .error .zeroDivisionError :=
  ⟨rfl, C4_zero_duration_raises rawZero rfl⟩

/-! ### C5 -/

theorem pyround_example : pyround ((210 : ℚ) / 220) 2 = 95 / 100 := by
  norm_num [pyround, rhe]

/-- C5: for every raw record with `deep+light+rem+wake > 0` the decoder
succeeds, the decoded `duration` is the sum of the four stage minutes, and
the decoded `efficiency` is `(deep+light+rem)/(deep+light+rem+wake)` rounded
to 2 decimals; in particular deep=60, light=120, rem=30, wake=10 decodes to
duration 220 and efficiency 0.95. -/
theorem C5_decoder :
    (∀ r : RawLog, 0 < r.deep + r.light + r.rem + r.wake →
      captureLog r = .ok (decodeLog r) ∧
      (decodeLog r).duration = r.deep + r.light + r.rem + r.wake ∧
      (decodeLog r).efficiency
        = pyround (((r.deep + r.light + r.rem : ℕ) : ℚ)
            / ((r.deep + r.light + r.rem + r.wake : ℕ) : ℚ)) 2)
    ∧ (captureLog raw5).map (fun l => (l.duration, l.efficiency))
        = .ok (220, 95 / 100) := by
  constructor
  · intro r h
    exact ⟨captureLog_ok (Nat.pos_iff_ne_zero.mp h), rfl, rfl⟩
  · have h2 : (decodeLog raw5).efficiency = 95 / 100 := by
      norm_num [decodeLog, sleepMinutes, totalMinutes, raw5, pyround, rhe]
    have h3 : (decodeLog raw5).duration = 220 := rfl
    rw [show captureLog raw5 = .ok (decodeLog raw5) from rfl]
    show Except.ok ((decodeLog raw5).duration, (decodeLog raw5).efficiency)
      = .ok (220, 95 / 100)
    rw [h2, h3]

theorem C5_witness :
    0 < raw5.deep + raw5.light + raw5.rem + raw5.wake ∧
    captureLog raw5 = .ok (decodeLog raw5) ∧
    (decodeLog raw5).duration = raw5.deep + raw5.light + raw5.rem + raw5.wake :=
  ⟨by decide, (C5_decoder.left raw5 (by decide)).1, (C5_decoder.left raw5 (by decide)).2.1⟩

/-! ### C6 -/

/-- C6: the engine requests exactly the gap range — the full range
`[epochDate, today]` when the file is absent, and `[latest + 1, today]` when
the file is present with `latest = max(date) ≠ today`. -/
theorem C6_gap_range :
    (∀ (provider : Nat → Nat → List RawLog) (today : Nat),
      (sleep_run provider today none).request = some (epochDate, today))
    ∧ (∀ (provider : Nat → Nat → List RawLog) (today : Nat)
        (tbl : List SleepLog), maxDate tbl ≠ today →
        (sleep_run provider today (some tbl)).request
          = some (maxDate tbl + 1, today)) := by
  constructor
  · intro p t
    cases hc : capture_explicit_data (p epochDate t) <;>
      simp [sleep_run, init_csv, hc]
  · intro p t tbl h1
    show (update_local_logs p t tbl).request = _
    by_cases h2 : p (maxDate tbl + 1) t = []
    · rw [update_empty_eq h1 h2]
    · cases h3 : capture_explicit_data (p (maxDate tbl + 1) t) with
      | error e => rw [update_error_eq h1 h2 h3]
      | ok api => rw [update_merge_eq h1 h2 h3]

theorem C6_witness :
    (sleep_run provider0 5 none).request = some (epochDate, 5) ∧
    maxDate [log3] ≠ 5 ∧
    (sleep_run provider0 5 (some [log3])).request = some (maxDate [log3] + 1, 5) :=
  ⟨C6_gap_range.left provider0 5, by decide,
    C6_gap_range.right provider0 5 [log3] (by decide)⟩

/-! ### C7 -/

/-- C7: when the table is present, `latest ≠ today`, and the provider
returns zero records for the gap, the run returns the local table unchanged
and never calls `to_csv`. -/
theorem C7_zero_records (provider : Nat → Nat → List RawLog) (today : Nat)
    (tbl : List SleepLog) (h1 : maxDate tbl ≠ today)
    (h2 : provider (maxDate tbl + 1) today = []) :
    (update_local_logs provider today tbl).result = .ok tbl ∧
    (update_local_logs provider today tbl).file = some tbl ∧
    (update_local_logs provider today tbl).wrote = false := by
  rw [update_empty_eq h1 h2]
  exact ⟨rfl, rfl, rfl⟩

theorem C7_witness :
    maxDate [log3] ≠ 5 ∧
    (update_local_logs provider0 5 [log3]).result = .ok [log3] ∧
    (update_local_logs provider0 5 [log3]).file = some [log3] ∧
    (update_local_logs provider0 5 [log3]).wrote = false :=
  ⟨by decide, (C7_zero_records provider0 5 [log3] (by decide) rfl).1,
    (C7_zero_records provider0 5 [log3] (by decide) rfl).2.1,
    (C7_zero_records provider0 5 [log3] (by decide) rfl).2.2⟩

/-! ### C8 -/

/-- C8, as stated, is false: on a zero-record table the metric deriver does
not return any result at all. -/
theorem C8_counterexample :
    exceptOk (plot_stages_percent_data []) = false := rfl

/-- C8 (amended): on a zero-record table the metric deriver raises
`IndexError` (from `index.tolist()[0]`) before any arithmetic — it performs
no division by zero, but it raises instead of returning an explicit
"no data" result. -/
theorem C8_empty_table :
    plot_stages_percent_data [] = .error .indexError := rfl

/-! ### C9 -/

/-- C9: for a table with exactly one record, each stage's across-table
median percentage equals that record's own percentage of its day's duration
for that stage. -/
theorem C9_single_median (r : SleepLog) (h : r.duration ≠ 0) :
    (plot_stages_percent_data [r]).map (·.awake_perc)
      = .ok [pyround ((r.wake : ℚ) / (r.duration : ℚ)) 3 * 100] ∧
    (plot_stages_percent_data [r]).map (·.awake_median)
      = .ok (pyround ((r.wake : ℚ) / (r.duration : ℚ)) 3 * 100) ∧
    (plot_stages_percent_data [r]).map (·.rem_median)
      = .ok (pyround ((r.rem : ℚ) / (r.duration : ℚ)) 3 * 100) ∧
    (plot_stages_percent_data [r]).map (·.light_median)
      = .ok (pyround ((r.light : ℚ) / (r.duration : ℚ)) 3 * 100) ∧
    (plot_stages_percent_data [r]).map (·.deep_median)
      = .ok (pyround ((r.deep : ℚ) / (r.duration : ℚ)) 3 * 100) := by
  refine ⟨?_, ?_, ?_, ?_, ?_⟩ <;>
    simp [plot_stages_percent_data, Except.map, stagePerc, npMedian_single,
      pyround_idem100]

theorem C9_witness :
    log3.duration ≠ 0 ∧
    (plot_stages_percent_data [log3]).map (·.awake_perc)
      = .ok [pyround ((log3.wake : ℚ) / (log3.duration : ℚ)) 3 * 100] ∧
    (plot_stages_percent_data [log3]).map (·.awake_median)
      = .ok (pyround ((log3.wake : ℚ) / (log3.duration : ℚ)) 3 * 100) ∧
    (plot_stages_percent_data [log3]).map (·.rem_median)
      = .ok (pyround ((log3.rem : ℚ) / (log3.duration : ℚ)) 3 * 100) ∧
    (plot_stages_percent_data [log3]).map (·.light_median)
      = .ok (pyround ((log3.light : ℚ) / (log3.duration : ℚ)) 3 * 100) ∧
    (plot_stages_percent_data [log3]).map (·.deep_median)
      = .ok (pyround ((log3.deep : ℚ) / (log3.duration : ℚ)) 3 * 100) :=
  ⟨by decide, C9_single_median log3 (by decide)⟩

/-! ### C10 -/

/-- C10: when the file is absent and the provider returns zero records for
the full backfill range, first-run initialization raises (`pd.concat` on an
empty list) and persists nothing — the file stays absent. -/
theorem C10_empty_backfill (provider : Nat → Nat → List RawLog) (today : Nat)
    (h : provider epochDate today = []) :
    (sleep_run provider today none).result = .error .valueError ∧
    (sleep_run provider today none).file = none ∧
    (sleep_run provider today none).wrote = false := by
  have hc : capture_explicit_data (provider epochDate today) = .error .valueError := by
    rw [h]
    rfl
  simp [sleep_run, init_csv, hc]

theorem C10_witness :
    provider0 epochDate 5 = [] ∧
    (sleep_run provider0 5 none).result = .error .valueError ∧
    (sleep_run provider0 5 none).file = none ∧
    (sleep_run provider0 5 none).wrote = false :=
  ⟨rfl, (C10_empty_backfill provider0 5 rfl).1, (C10_empty_backfill provider0 5 rfl).2.1,
    (C10_empty_backfill provider0 5 rfl).2.2⟩

/-! ### C1 -/

/-- Dates (in row order) of the table a run produced, `[]` on an exception. -/
def datesOfRun (o : RunOut) : List Nat :=
  match o.result with
  | .ok t => t.map (·.dateOfSleep)
  | .error _ => []

/-- A decoded row dated day 10. -/
def log10 : SleepLog := ⟨10, 0, 0, 0, 1, 1, 1, 1, 3/4, 4⟩

/-- A decoded row dated day 12. -/
def log12 : SleepLog := ⟨12, 0, 0, 0, 1, 1, 1, 1, 3/4, 4⟩

/-- A raw record dated day 11. -/
def raw11 : RawLog := ⟨11, 0, 0, 0, 1, 1, 1, 1⟩

/-- A raw record dated day 12. -/
def raw12 : RawLog := ⟨12, 0, 0, 0, 1, 1, 1, 1⟩

/-- A provider answering every request with days 11 and 12 in ascending
order. -/
def cexProviderAsc : Nat → Nat → List RawLog := fun _ _ => [raw11, raw12]

/-- A provider answering every request with days 12 and 11 in descending
(newest-first) order. -/
def cexProviderDesc : Nat → Nat → List RawLog := fun _ _ => [raw12, raw11]

theorem mem_of_getLast_opt {α : Type} {l : List α} {a : α} (h : a ∈ l.getLast?) :
    a ∈ l := by
  obtain ⟨hne, rfl⟩ := List.mem_getLast?_eq_getLast h
  exact List.getLast_mem hne

theorem mem_of_head_opt {α : Type} {l : List α} {a : α} (h : a ∈ l.head?) :
    a ∈ l := by
  cases l with
  | nil => simp at h
  | cons x xs =>
    simp [List.head?] at h
    subst h
    exact List.mem_cons_self x xs

theorem map_date_decode (raws : List RawLog) :
    (raws.map decodeLog).map (·.dateOfSleep) = raws.map (·.dateOfSleep) := by
  rw [List.map_map]
  rfl

/-- C1, as stated, is false: with a local table holding day 10 and a
provider response covering the disjoint days 11 and 12 in ascending order
(an "arbitrary" order), the merged and persisted table is `[10, 12, 11]` —
the engine only reverses the response, it never sorts. -/
theorem C1_counterexample :
    datesOfRun (update_local_logs cexProviderAsc 13 [log10]) = [10, 12, 11] ∧
    ¬ List.Chain' (fun a b : Nat => a ≤ b) [10, 12, 11] := by
  exact ⟨rfl, by simp [List.chain'_cons]⟩

/-- C1 (amended): the merge appends the reverse of the provider response to
the local table; when the provider returns its records in descending
(newest-first) date order over dates strictly above the local ones — the
order the reversal step is written for — the persisted result is the
ascending-by-date union, of size `n + k`. -/
theorem C1_merge (provider : Nat → Nat → List RawLog) (today : Nat)
    (tbl : List SleepLog) (raws : List RawLog)
    (h1 : maxDate tbl ≠ today)
    (hprov : provider (maxDate tbl + 1) today = raws)
    (hne : raws ≠ [])
    (hok : ∀ r ∈ raws, totalMinutes r ≠ 0)
    (hdesc : List.Chain' (fun a b : RawLog => b.dateOfSleep < a.dateOfSleep) raws)
    (hsorted : sortedByDate tbl)
    (hgap : ∀ r ∈ raws, ∀ l ∈ tbl, l.dateOfSleep < r.dateOfSleep) :
    (update_local_logs provider today tbl).result
        = .ok (tbl ++ (raws.map decodeLog).reverse) ∧
    (update_local_logs provider today tbl).file
        = some (tbl ++ (raws.map decodeLog).reverse) ∧
    (update_local_logs provider today tbl).wrote = true ∧
    sortedByDate (tbl ++ (raws.map decodeLog).reverse) ∧
    (tbl ++ (raws.map decodeLog).reverse).length = tbl.length + raws.length := by
  have hcap : capture_explicit_data (provider (maxDate tbl + 1) today)
      = .ok ((raws.map decodeLog).reverse) := by
    rw [hprov]
    exact capture_ok hne hok
  have h2 : provider (maxDate tbl + 1) today ≠ [] := by
    rw [hprov]
    exact hne
  have heq := update_merge_eq h1 h2 hcap
  refine ⟨by rw [heq], by rw [heq], by rw [heq], ?_, by simp⟩
  unfold sortedByDate
  rw [List.map_append, List.map_reverse, map_date_decode, List.chain'_append]
  refine ⟨hsorted, ?_, ?_⟩
  · rw [List.chain'_reverse]
    exact (List.chain'_map _).mpr hdesc
  · intro x hx' y hy'
    have hxm := mem_of_getLast_opt hx'
    have hym := List.mem_reverse.mp (mem_of_head_opt hy')
    obtain ⟨lx, hlx, rfl⟩ := List.mem_map.mp hxm
    obtain ⟨ry, hry, rfl⟩ := List.mem_map.mp hym
    exact hgap ry hry lx hlx

theorem C1_witness :
    (update_local_logs cexProviderDesc 13 [log10]).result
        = .ok ([log10] ++ ([raw12, raw11].map decodeLog).reverse) ∧
    (update_local_logs cexProviderDesc 13 [log10]).file
        = some ([log10] ++ ([raw12, raw11].map decodeLog).reverse) ∧
    (update_local_logs cexProviderDesc 13 [log10]).wrote = true ∧
    sortedByDate ([log10] ++ ([raw12, raw11].map decodeLog).reverse) ∧
    ([log10] ++ ([raw12, raw11].map decodeLog).reverse).length
        = [log10].length + [raw12, raw11].length :=
  C1_merge cexProviderDesc 13 [log10] [raw12, raw11] (by decide) rfl
    (by decide) (by decide) (by simp [List.chain'_cons, raw11, raw12])
    (by simp [sortedByDate]) (by decide)

/-! ### C2 -/

/-- A provider answering every request with a single record for day 12
(double delivery of an already-stored date). -/
def dupProvider : Nat → Nat → List RawLog := fun _ _ => [raw12]

/-- C2, as stated, is false: when the provider returns a record for day 12,
already present in the local table `[10, 12]`, the run raises nothing
(`result` is `ok`), calls `to_csv`, and the persisted table carries day 12
twice. -/
theorem C2_counterexample :
    exceptOk (update_local_logs dupProvider 13 [log10, log12]).result = true ∧
    (update_local_logs dupProvider 13 [log10, log12]).wrote = true ∧
    datesOfRun (update_local_logs dupProvider 13 [log10, log12]) = [10, 12, 12] :=
  ⟨rfl, rfl, rfl⟩

/-- C2 (amended): the engine performs no date-collision check.  Whenever the
gap request succeeds and decodes, the response is appended and persisted
as-is, so each date occurs in the persisted table as often as in the local
table plus the response — a colliding date yields a duplicated row, not a
`MergeConflictError`, and the file is overwritten. -/
theorem C2_duplicate_append (provider : Nat → Nat → List RawLog) (today : Nat)
    (tbl : List SleepLog) (raws : List RawLog)
    (h1 : maxDate tbl ≠ today)
    (hprov : provider (maxDate tbl + 1) today = raws)
    (hne : raws ≠ [])
    (hok : ∀ r ∈ raws, totalMinutes r ≠ 0) :
    (update_local_logs provider today tbl).result
        = .ok (tbl ++ (raws.map decodeLog).reverse) ∧
    (update_local_logs provider today tbl).file
        = some (tbl ++ (raws.map decodeLog).reverse) ∧
    (update_local_logs provider today tbl).wrote = true ∧
    ∀ d, dateCount d (tbl ++ (raws.map decodeLog).reverse)
        = dateCount d tbl + rawDateCount d raws := by
  have hcap : capture_explicit_data (provider (maxDate tbl + 1) today)
      = .ok ((raws.map decodeLog).reverse) := by
    rw [hprov]
    exact capture_ok hne hok
  have h2 : provider (maxDate tbl + 1) today ≠ [] := by
    rw [hprov]
    exact hne
  have heq := update_merge_eq h1 h2 hcap
  refine ⟨by rw [heq], by rw [heq], by rw [heq], ?_⟩
  intro d
  unfold dateCount rawDateCount
  rw [List.map_append, List.count_append, List.map_reverse, map_date_decode,
    List.count_reverse]

theorem C2_witness :
    (update_local_logs dupProvider 13 [log10, log12]).result
        = .ok ([log10, log12] ++ ([raw12].map decodeLog).reverse) ∧
    (update_local_logs dupProvider 13 [log10, log12]).file
        = some ([log10, log12] ++ ([raw12].map decodeLog).reverse) ∧
    (update_local_logs dupProvider 13 [log10, log12]).wrote = true ∧
    dateCount 12 ([log10, log12] ++ ([raw12].map decodeLog).reverse)
        = dateCount 12 [log10, log12] + rawDateCount 12 [raw12] :=
  ⟨(C2_duplicate_append dupProvider 13 [log10, log12] [raw12] (by decide) rfl
      (by decide) (by decide)).1,
    (C2_duplicate_append dupProvider 13 [log10, log12] [raw12] (by decide) rfl
      (by decide) (by decide)).2.1,
    (C2_duplicate_append dupProvider 13 [log10, log12] [raw12] (by decide) rfl
      (by decide) (by decide)).2.2.1,
    (C2_duplicate_append dupProvider 13 [log10, log12] [raw12] (by decide) rfl
      (by decide) (by decide)).2.2.2 12⟩

/-! ### C3 -/

/-- Modelled from the spec: `fitbit.sleeplogs_range`, the provider query
contract of the Fitbit client (`IoTHealth/fitbit.py` is not part of the
sources).  The provider owns a store with at most one record per date; a
request for the inclusive range `(s, e)` returns the stored records whose
dates lie in the range, newest first. -/
def rangeProvider (store : Nat → Option RawLog) (s e : Nat) : List RawLog :=
  ((List.range' s (e + 1 - s)).filterMap store).reverse

/-- C3: when the local table's maximum date equals today, the run makes no
request and returns the table unchanged; and against a provider honouring
the range contract, a second run on the same day returns (and leaves
persisted) exactly the table the first successful run produced. -/
theorem C3_same_day :
    (∀ (provider : Nat → Nat → List RawLog) (today : Nat) (tbl : List SleepLog),
      maxDate tbl = today →
      update_local_logs provider today tbl = ⟨.ok tbl, some tbl, none, false⟩)
    ∧ (∀ (store : Nat → Option RawLog) (today : Nat) (tbl t₁ : List SleepLog),
        (∀ d r, store d = some r → r.dateOfSleep = d) →
        (update_local_logs (rangeProvider store) today tbl).result = .ok t₁ →
        (update_local_logs (rangeProvider store) today tbl).file = some t₁ ∧
        (update_local_logs (rangeProvider store) today t₁).result = .ok t₁ ∧
        (update_local_logs (rangeProvider store) today t₁).file = some t₁) := by
  constructor
  · intro p t tbl h
    exact update_latest_eq h
  · intro store today tbl t₁ hstore hres
    by_cases h1 : maxDate tbl = today
    · rw [update_latest_eq h1] at hres
      obtain rfl : tbl = t₁ := Except.ok.inj hres
      rw [update_latest_eq h1]
      exact ⟨rfl, rfl, rfl⟩
    · by_cases h2 : rangeProvider store (maxDate tbl + 1) today = []
      · rw [update_empty_eq h1 h2] at hres
        obtain rfl : tbl = t₁ := Except.ok.inj hres
        rw [update_empty_eq h1 h2]
        exact ⟨rfl, rfl, rfl⟩
      · cases h3 : capture_explicit_data (rangeProvider store (maxDate tbl + 1) today) with
        | error e =>
          rw [update_error_eq h1 h2 h3] at hres
          exact (Except.noConfusion hres)
        | ok api =>
          rw [update_merge_eq h1 h2 h3] at hres
          obtain rfl : tbl ++ api = t₁ := Except.ok.inj hres
          refine ⟨by rw [update_merge_eq h1 h2 h3], ?_⟩
          by_cases h4 : maxDate (tbl ++ api) = today
          · rw [update_latest_eq h4]
            exact ⟨rfl, rfl⟩
          · have hMtbl : maxDate tbl ≤ maxDate (tbl ++ api) := by
              rw [maxDate_append]
              exact le_max_left _ _
            have h5 : rangeProvider store (maxDate (tbl ++ api) + 1) today = [] := by
              apply List.eq_nil_iff_forall_not_mem.mpr
              intro r hr
              have hmem : r ∈ (List.range' (maxDate (tbl ++ api) + 1)
                  (today + 1 - (maxDate (tbl ++ api) + 1))).filterMap store := by
                simpa [rangeProvider] using hr
              obtain ⟨d, hdmem, hsd⟩ := List.mem_filterMap.mp hmem
              obtain ⟨i, hi, rfl⟩ := List.mem_range'.mp hdmem
              have hdate := hstore _ r hsd
              have hge : maxDate (tbl ++ api) + 1 ≤ maxDate (tbl ++ api) + 1 + 1 * i := by
                omega
              have hlt : maxDate (tbl ++ api) + 1 + 1 * i ≤ today := by
                omega
              have hr1 : r ∈ rangeProvider store (maxDate tbl + 1) today := by
                simp only [rangeProvider, List.mem_reverse]
                apply List.mem_filterMap.mpr
                refine ⟨maxDate (tbl ++ api) + 1 + 1 * i, ?_, hsd⟩
                apply List.mem_range'.mpr
                exact ⟨maxDate (tbl ++ api) + 1 + 1 * i - (maxDate tbl + 1),
                  by omega, by omega⟩
              have hdapi : r.dateOfSleep ∈ api.map (·.dateOfSleep) := by
                rw [capture_dates h3]
                apply List.mem_reverse.mpr
                exact List.mem_map.mpr ⟨r, hr1, rfl⟩
              obtain ⟨l, hl, hld⟩ := List.mem_map.mp hdapi
              have hlM : l.dateOfSleep ≤ maxDate (tbl ++ api) :=
                le_maxDate_of_mem (List.mem_append.mpr (Or.inr hl))
              omega
            rw [update_empty_eq h4 h5]
            exact ⟨rfl, rfl⟩

theorem C3_witness :
    update_local_logs provider0 3 [log3] = ⟨.ok [log3], some [log3], none, false⟩ ∧
    (update_local_logs (rangeProvider (fun _ => none)) 5 [log3]).file = some [log3] ∧
    (update_local_logs (rangeProvider (fun _ => none)) 5 [log3]).result = .ok [log3] ∧
    (update_local_logs (rangeProvider (fun _ => none)) 5 [log3]).file = some [log3] :=
  ⟨C3_same_day.left provider0 3 [log3] (by decide),
    (C3_same_day.right (fun _ => none) 5 [log3] [log3] (fun _ _ h => by cases h) rfl).1,
    (C3_same_day.right (fun _ => none) 5 [log3] [log3] (fun _ _ h => by cases h) rfl).2.1,
    (C3_same_day.right (fun _ => none) 5 [log3] [log3] (fun _ _ h => by cases h) rfl).2.2⟩
